import Mathlib

set_option maxHeartbeats 1000000

/-!
Verification development for `pg_scofflaw`, a custom authentication proxy for
PostgreSQL.  The repository's visible source (`setup.py`) only declares the
package; the proxy implementation itself (the `pg_scofflaw` script) is not in
the tree, so every component below is modelled from the specification's own
words: the Frame Codec, the Auth Negotiator, the Backend Connector, the
Session Coordinator and the Relay Engine.  Byte strings are modelled as
`List Nat` with each element below 256; streams are byte lists; the two
concurrent relay directions are modelled as a small-step transition relation.
-/

namespace PgScofflaw

/-! ## Frame Codec -/

/-- Modelled from the spec: big-endian 4-byte (Int32) encoding of a length or
protocol-version field, as used by PostgreSQL protocol 3.0 framing
(`Int32 length | Int32 protocolVersion | ...`).  The `pg_scofflaw` script that
implements this codec is missing from the tree. -/
def toBytes4 (n : Nat) : List Nat :=
  [n / 2 ^ 24 % 256, n / 2 ^ 16 % 256, n / 2 ^ 8 % 256, n % 256]

/-- Modelled from the spec: big-endian decoding of a 4-byte field. -/
def fromBytes4 : List Nat → Nat
  | [a, b, c, d] => ((a * 256 + b) * 256 + c) * 256 + d
  | _ => 0

/-- Modelled from the spec: a `StartupMessage` carries a protocol version and
an ordered sequence of (key, value) string pairs; strings are byte sequences
on the wire. -/
structure StartupMessage where
  protocolVersion : Nat
  parameters : List (List Nat × List Nat)
deriving DecidableEq, Repr

/-- Modelled from the spec: a `RegularMessage` carries a 1-byte type tag and a
payload byte sequence. -/
structure RegularMessage where
  typeTag : Nat
  payload : List Nat
deriving DecidableEq, Repr

/-- Modelled from the spec: `Message` is the discriminated unit of the wire
protocol, either a startup message or a regular (tagged) message. -/
inductive Message where
  | startup (m : StartupMessage)
  | regular (m : RegularMessage)
deriving DecidableEq, Repr

/-- Modelled from the spec: startup parameters are laid out as
`key\0value\0 ... \0`, each key and value NUL-terminated, with a final NUL
terminator after the last pair. -/
def encodeParams : List (List Nat × List Nat) → List Nat
  | [] => [0]
  | (k, v) :: ps => k ++ 0 :: (v ++ 0 :: encodeParams ps)

/-- Modelled from the spec: the body of a startup message, i.e. everything
after the self-inclusive length field: the protocol version followed by the
parameter list. -/
def startupBody (m : StartupMessage) : List Nat :=
  toBytes4 m.protocolVersion ++ encodeParams m.parameters

/-- Modelled from the spec: startup messages use length-prefix-only framing
(no type tag); the length field always equals 4 + payload length
(self-inclusive). -/
def encodeStartup (m : StartupMessage) : List Nat :=
  toBytes4 (4 + (startupBody m).length) ++ startupBody m

/-- Modelled from the spec: regular messages are framed as
`Byte1 type | Int32 length | payload`, with the self-inclusive length field
equal to 4 + payload length. -/
def encodeRegular (m : RegularMessage) : List Nat :=
  m.typeTag :: (toBytes4 (4 + m.payload.length) ++ m.payload)

/-- Modelled from the spec: `encode(Message) → byte sequence`. -/
def encode : Message → List Nat
  | .startup m => encodeStartup m
  | .regular m => encodeRegular m

/-- Result of a decode operation over a byte stream.  On success it returns
the decoded value and the unconsumed remainder of the stream; on failure it
fails with `ProtocolError`, again recording how much of the stream was
consumed so that consumption bounds can be stated. -/
inductive DecodeResult (α : Type) where
  | ok (value : α) (rest : List Nat)
  | protocolError (rest : List Nat)
deriving DecidableEq, Repr

/-- Returns `true` iff the decode failed with `ProtocolError`. -/
def DecodeResult.isProtocolError {α : Type} : DecodeResult α → Bool
  | .ok _ _ => false
  | .protocolError _ => true

/-- Modelled from the spec: a length-bounded read of exactly `n` bytes from
the stream; `none` signals a short read (the stream closed before `n` bytes
arrived). -/
def readBytes (n : Nat) (s : List Nat) : Option (List Nat × List Nat) :=
  if n ≤ s.length then some (s.take n, s.drop n) else none

/-- Modelled from the spec: split a NUL-terminated string off the front of a
byte sequence, returning the string (without the NUL) and the remainder after
the NUL; `none` if no NUL terminator is present. -/
def splitCStr : List Nat → Option (List Nat × List Nat)
  | [] => none
  | b :: rest =>
    if b = 0 then some ([], rest)
    else
      match splitCStr rest with
      | none => none
      | some (w, r) => some (b :: w, r)

theorem splitCStr_length {s w r : List Nat} (h : splitCStr s = some (w, r)) :
    r.length < s.length := by
  induction s generalizing w r with
  | nil => simp [splitCStr] at h
  | cons b rest ih =>
    simp only [splitCStr] at h
    by_cases hb : b = 0
    · simp [hb] at h
      simp [← h.2]
    · simp only [hb, if_false] at h
      cases hs : splitCStr rest with
      | none => rw [hs] at h; exact absurd h (by simp)
      | some p =>
        rw [hs] at h
        obtain ⟨w', r'⟩ := p
        simp at h
        have := ih hs
        simp [← h.2]
        omega

/-- Modelled from the spec: parse the `key\0value\0 ... \0` parameter section
of a startup message, consuming the whole byte sequence; fails if the section
is malformed or has trailing bytes. -/
def parseParams : List Nat → Option (List (List Nat × List Nat))
  | [] => none
  | 0 :: rest => if rest.isEmpty then some [] else none
  | s@((_ + 1) :: _) =>
    match hk : splitCStr s with
    | none => none
    | some (k, r1) =>
      match hv : splitCStr r1 with
      | none => none
      | some (v, r2) =>
        match parseParams r2 with
        | none => none
        | some ps => some ((k, v) :: ps)
termination_by s => s.length
decreasing_by
  rename_i hs
  simp only [namedPattern, ← hs]
  exact Nat.lt_trans (splitCStr_length hv) (splitCStr_length hk)

/-- Modelled from the spec: parse the body of a startup message (after the
length field): 4-byte protocol version then the parameter pairs. -/
def parseStartupBody (body : List Nat) : Option StartupMessage :=
  match readBytes 4 body with
  | none => none
  | some (vb, rest) =>
    match parseParams rest with
    | none => none
    | some ps => some ⟨fromBytes4 vb, ps⟩

/-- Modelled from the spec: `decodeStartup(stream) → StartupMessage`, failing
with `ProtocolError` if the declared length is below 8 or exceeds the
configured maximum `maxLen` (guarding against hostile length fields); when
the length guard rejects, only the 4-byte length field has been consumed. -/
def decodeStartup (maxLen : Nat) (s : List Nat) : DecodeResult StartupMessage :=
  match readBytes 4 s with
  | none => .protocolError s
  | some (lenBytes, rest) =>
    let len := fromBytes4 lenBytes
    if len < 8 ∨ maxLen < len then .protocolError rest
    else
      match readBytes (len - 4) rest with
      | none => .protocolError rest
      | some (body, rest2) =>
        match parseStartupBody body with
        | none => .protocolError rest2
        | some m => .ok m rest2

/-- Modelled from the spec: `decodeRegular(stream) → RegularMessage`, failing
with `ProtocolError` on short reads, on a length field below 4, or on a
length exceeding the configured maximum. -/
def decodeRegular (maxLen : Nat) (s : List Nat) : DecodeResult RegularMessage :=
  match s with
  | [] => .protocolError s
  | tag :: rest =>
    match readBytes 4 rest with
    | none => .protocolError rest
    | some (lenBytes, rest2) =>
      let len := fromBytes4 lenBytes
      if len < 4 ∨ maxLen < len then .protocolError rest2
      else
        match readBytes (len - 4) rest2 with
        | none => .protocolError rest2
        | some (payload, rest3) => .ok ⟨tag, payload⟩ rest3

/-- Which framing applies to the next message on a stream: the untagged
startup framing (only the very first client message) or the tagged regular
framing (everything after). -/
inductive Phase where
  | startupPhase
  | regularPhase
deriving DecidableEq, Repr

/-- The phase whose framing a message uses. -/
def Message.phase : Message → Phase
  | .startup _ => .startupPhase
  | .regular _ => .regularPhase

/-- Modelled from the spec: `decode`, the exact inverse of `encode`: in the
startup phase the stream is decoded with `decodeStartup`, afterwards with
`decodeRegular`. -/
def decode (maxLen : Nat) : Phase → List Nat → DecodeResult Message
  | .startupPhase, s =>
    match decodeStartup maxLen s with
    | .ok m r => .ok (.startup m) r
    | .protocolError r => .protocolError r
  | .regularPhase, s =>
    match decodeRegular maxLen s with
    | .ok m r => .ok (.regular m) r
    | .protocolError r => .protocolError r

/-- A valid startup message: the protocol version fits in an Int32, every
parameter key is nonempty, and no key or value byte is NUL (NUL is the
terminator on the wire). -/
def StartupMessage.valid (m : StartupMessage) : Prop :=
  m.protocolVersion < 2 ^ 32 ∧
    ∀ p ∈ m.parameters, p.1 ≠ [] ∧ 0 ∉ p.1 ∧ 0 ∉ p.2

instance (m : StartupMessage) : Decidable m.valid := by
  unfold StartupMessage.valid; infer_instance

/-- A valid regular message: the type tag is one byte and the self-inclusive
length fits in an Int32. -/
def RegularMessage.valid (m : RegularMessage) : Prop :=
  m.typeTag < 256 ∧ 4 + m.payload.length < 2 ^ 32

instance (m : RegularMessage) : Decidable m.valid := by
  unfold RegularMessage.valid; infer_instance

/-- A valid message relative to the configured maximum message size: the
variant-specific validity together with the encoded frame fitting under the
configured ceiling. -/
def Message.valid (maxLen : Nat) : Message → Prop
  | .startup m => m.valid ∧ (encodeStartup m).length ≤ maxLen ∧
      (encodeStartup m).length < 2 ^ 32
  | .regular m => m.valid ∧ 4 + m.payload.length ≤ maxLen

instance (maxLen : Nat) (m : Message) : Decidable (m.valid maxLen) := by
  cases m <;> (unfold Message.valid; infer_instance)

/-! ## Verifier, client-visible messages and error texts -/

/-- Modelled from the spec: `VerifierResult` is the tri-state outcome
{Accepted, Rejected(reason), Error(cause)} returned by the external
credential-verification capability. -/
inductive VerifierResult where
  | accepted
  | rejected (reason : String)
  | error (cause : String)
deriving DecidableEq, Repr

/-- Modelled from the spec: the protocol messages the proxy sends to its
client during startup and authentication (AuthRequest, AuthenticationOk,
ParameterStatus, BackendKeyData, ReadyForQuery, ErrorResponse). -/
inductive ClientMsg where
  | authRequest (methodCode : Nat)
  | authenticationOk
  | parameterStatus (key value : List Nat)
  | backendKeyData (pid secret : Nat)
  | readyForQuery
  | errorResponse (sqlState message : String)
deriving DecidableEq, Repr

/-- Modelled from the spec: the single authentication method the proxy
dictates to the client (cleartext password, method code 3 in the wire
protocol). -/
def cleartextMethodCode : Nat := 3

/-- Modelled from the spec: the SQLSTATE for invalid authorization, sent on a
Rejected verifier outcome. -/
def invalidAuthorizationSqlState : String := "28000"

/-- Modelled from the spec: the standard invalid-authorization error text. -/
def invalidAuthorizationMsg : String := "password authentication failed"

/-- Modelled from the spec: the SQLSTATE used for generic session-fatal
internal failures. -/
def internalErrorSqlState : String := "XX000"

/-- Modelled from the spec: the generic error text sent when the verifier
itself fails; it never leaks the internal cause. -/
def genericVerifierFailureMsg : String := "authentication service unavailable"

/-- Modelled from the spec: the generic error text sent when the backend is
unavailable; it never exposes backend-internal error text. -/
def genericBackendFailureMsg : String := "could not connect to backend server"

/-! ## Auth Negotiator state machine -/

/-- Modelled from the spec: the Auth Negotiator's per-session states,
`AwaitingStartup → MethodSelected → AwaitingCredential →
{Accepted | Rejected | Errored}`. -/
inductive AuthState where
  | awaitingStartup
  | methodSelected
  | awaitingCredential
  | accepted
  | rejected
  | errored
deriving DecidableEq, Repr

/-- Events driving the Auth Negotiator: the client's startup message, the
proxy's own AuthRequest emission, the verifier returning a result for the
received credential, and expiry of the configured credential-wait interval. -/
inductive AuthEvent where
  | startupReceived
  | authRequestSent
  | verifierReturned (r : VerifierResult)
  | timeout
deriving DecidableEq, Repr

/-- Observable side effects of one Auth Negotiator transition: the messages
sent to the client and whether the client socket is closed. -/
structure AuthEffects where
  sentToClient : List ClientMsg
  closeClient : Bool
deriving DecidableEq, Repr

/-- Modelled from the spec: the Auth Negotiator transition function.  On a
startup message it selects the configured method; it sends the AuthRequest
and awaits the credential; a Rejected verifier outcome sends an ErrorResponse
with the invalid-authorization SQLSTATE and closes the socket; an Error
outcome sends a generic ErrorResponse (never leaking the internal cause) and
closes the socket; a timeout while awaiting the credential is treated as
Rejected. -/
def authStep : AuthState → AuthEvent → AuthState × AuthEffects
  | .awaitingStartup, .startupReceived => (.methodSelected, ⟨[], false⟩)
  | .methodSelected, .authRequestSent =>
      (.awaitingCredential, ⟨[.authRequest cleartextMethodCode], false⟩)
  | .awaitingCredential, .verifierReturned .accepted =>
      (.accepted, ⟨[.authenticationOk], false⟩)
  | .awaitingCredential, .verifierReturned (.rejected _) =>
      (.rejected,
       ⟨[.errorResponse invalidAuthorizationSqlState invalidAuthorizationMsg], true⟩)
  | .awaitingCredential, .verifierReturned (.error _) =>
      (.errored,
       ⟨[.errorResponse internalErrorSqlState genericVerifierFailureMsg], true⟩)
  | .awaitingCredential, .timeout =>
      (.rejected,
       ⟨[.errorResponse invalidAuthorizationSqlState invalidAuthorizationMsg], true⟩)
  | s, _ => (s, ⟨[], false⟩)

/-! ## Backend Connector and Session Coordinator -/

/-- Modelled from the spec: the session-relevant data the Backend Connector
captures from a successful backend handshake: the ParameterStatus set and the
BackendKeyData, which the proxy relays to its own client. -/
structure BackendSessionData where
  parameterStatuses : List (List Nat × List Nat)
  keyDataPid : Nat
  keyDataSecret : Nat
deriving DecidableEq, Repr

/-- Modelled from the spec: outcome of invoking the Backend Connector: an
authenticated ready-to-relay channel, or `BackendUnavailable` carrying the
backend-internal error text (which must never reach a client). -/
inductive BackendOutcome where
  | ok (hs : BackendSessionData)
  | unavailable (internalErrorText : String)
deriving DecidableEq, Repr

/-- Observable actions of one proxied session, in order: messages sent to the
client, invocations of the external verifier and of the Backend Connector,
the backend connection opening, relay mode, bytes delivered by the two relay
directions, and socket teardown. -/
inductive Action where
  | sendClient (m : ClientMsg)
  | invokeVerifier
  | invokeConnector
  | backendOpened
  | enterRelay
  | relayToBackend (bytes : List Nat)
  | relayToClient (bytes : List Nat)
  | closeBackend
  | closeClient
deriving DecidableEq, Repr

/-- Modelled from the spec: the bounded chunk size of the relay copy loops
(each read takes at most `relayChunkSize` bytes). -/
def relayChunkSize : Nat := 8192

/-- Modelled from the spec: one relay copy loop: repeatedly read a bounded,
nonempty chunk (at most `chunk + 1` bytes) from the source and write it to
the sink until the source signals end-of-stream; bytes are opaque and never
interpreted. -/
def relayCopy (chunk : Nat) : List Nat → List Nat
  | [] => []
  | b :: rest =>
      (b :: rest).take (chunk + 1) ++ relayCopy chunk ((b :: rest).drop (chunk + 1))
termination_by l => l.length
decreasing_by
  simp
  omega

/-- Modelled from the spec: the Session Coordinator's end-to-end run of one
client connection, as the ordered list of its observable actions: the proxy
sends the AuthRequest and invokes the verifier; on Rejected it sends the
invalid-authorization ErrorResponse and closes the client socket; on Error it
sends a generic ErrorResponse and closes the client socket; only on Accepted
does it invoke the Backend Connector; if the backend is unavailable the
client gets a generic ErrorResponse (never the backend's internal text) and
the socket is closed, with no transparent retry; on success the proxy opens
the backend, synthesizes AuthenticationOk, the captured ParameterStatus set,
BackendKeyData and ReadyForQuery, enters relay mode, relays both directions
byte-exactly, and finally closes both sockets. -/
def runSession (vr : VerifierResult) (bo : BackendOutcome)
    (clientBytes backendBytes : List Nat) : List Action :=
  .sendClient (.authRequest cleartextMethodCode) :: .invokeVerifier ::
  match vr with
  | .rejected _ =>
      [.sendClient (.errorResponse invalidAuthorizationSqlState invalidAuthorizationMsg),
       .closeClient]
  | .error _ =>
      [.sendClient (.errorResponse internalErrorSqlState genericVerifierFailureMsg),
       .closeClient]
  | .accepted =>
      .invokeConnector ::
      match bo with
      | .unavailable _ =>
          [.sendClient (.errorResponse internalErrorSqlState genericBackendFailureMsg),
           .closeClient]
      | .ok hs =>
          .backendOpened ::
          .sendClient .authenticationOk ::
          (hs.parameterStatuses.map (fun p => .sendClient (.parameterStatus p.1 p.2)) ++
           [.sendClient (.backendKeyData hs.keyDataPid hs.keyDataSecret),
            .sendClient .readyForQuery,
            .enterRelay,
            .relayToBackend (relayCopy relayChunkSize clientBytes),
            .relayToClient (relayCopy relayChunkSize backendBytes),
            .closeBackend,
            .closeClient])

/-- All bytes a session's trace delivered to the backend, in order. -/
def deliveredToBackend : List Action → List Nat
  | [] => []
  | .relayToBackend bs :: tr => bs ++ deliveredToBackend tr
  | _ :: tr => deliveredToBackend tr

/-- All bytes a session's trace delivered to the client during relay, in
order. -/
def deliveredToClient : List Action → List Nat
  | [] => []
  | .relayToClient bs :: tr => bs ++ deliveredToClient tr
  | _ :: tr => deliveredToClient tr

/-- How many times an action occurs in a trace. -/
def countAction (a : Action) (tr : List Action) : Nat :=
  tr.count a

/-- Modelled from the spec: the Session Coordinator's lifecycle states,
`Connecting → Authenticating → BackendHandshake → Relaying → Closed`. -/
inductive CoordState where
  | connecting
  | authenticating
  | backendHandshake
  | relaying
  | closed
deriving DecidableEq, Repr

/-- Events driving the Session Coordinator's lifecycle. -/
inductive CoordEvent where
  | startupParsed
  | clientAuthSucceeded
  | clientAuthFailed
  | backendReady
  | backendFailed
  | relayFinished
  | socketError
  | explicitClose
deriving DecidableEq, Repr

/-- Modelled from the spec: the Session Coordinator's lifecycle transition
function.  Any state may transition to `Closed` on socket error or explicit
close from either side; `Closed` is terminal and never re-entered. -/
def coordStep : CoordState → CoordEvent → CoordState
  | .closed, _ => .closed
  | _, .socketError => .closed
  | _, .explicitClose => .closed
  | .connecting, .startupParsed => .authenticating
  | .authenticating, .clientAuthSucceeded => .backendHandshake
  | .authenticating, .clientAuthFailed => .closed
  | .backendHandshake, .backendReady => .relaying
  | .backendHandshake, .backendFailed => .closed
  | .relaying, .relayFinished => .closed
  | s, _ => s

/-! ## Relay Engine half-close semantics -/

/-- One relay direction of a session in relay mode: the bytes its source has
yet to produce, the bytes read but not yet written (the buffer), the bytes
written to the sink, whether end-of-stream was observed on the source, and
whether this direction's write side has been shut down. -/
structure RelayDir where
  source : List Nat
  buffered : List Nat
  delivered : List Nat
  eos : Bool
  shut : Bool
deriving DecidableEq, Repr

/-- A relaying session: the client→backend direction, the backend→client
direction, and whether the session has fully closed. -/
structure RelayState where
  clientToBackend : RelayDir
  backendToClient : RelayDir
  sessionClosed : Bool
deriving DecidableEq, Repr

/-- Modelled from the spec: the atomic steps of one relay direction's copy
loop: read a bounded nonempty chunk from the source into the buffer, write
the buffer out to the sink, observe end-of-stream on an exhausted source, and
shut down the write side once end-of-stream is reached and the buffer has
drained. -/
inductive DirStep : RelayDir → RelayDir → Prop where
  | read (d : RelayDir) (n : Nat) (hn : 0 < n) (hs : d.source ≠ []) (he : d.eos = false) :
      DirStep d { d with source := d.source.drop n, buffered := d.buffered ++ d.source.take n }
  | write (d : RelayDir) (hb : d.buffered ≠ []) (hw : d.shut = false) :
      DirStep d { d with buffered := [], delivered := d.delivered ++ d.buffered }
  | markEos (d : RelayDir) (hs : d.source = []) (he : d.eos = false) :
      DirStep d { d with eos := true }
  | shutdownWrite (d : RelayDir) (he : d.eos = true) (hb : d.buffered = []) (hw : d.shut = false) :
      DirStep d { d with shut := true }

/-- Modelled from the spec: the Relay Engine's session-level steps: the two
directions run concurrently (either may take a step at any interleaving
point), and the session fully closes only when both directions have shut
their write sides. -/
inductive RelayStep : RelayState → RelayState → Prop where
  | clientSide (s : RelayState) (d : RelayDir) (hc : s.sessionClosed = false)
      (h : DirStep s.clientToBackend d) :
      RelayStep s { s with clientToBackend := d }
  | backendSide (s : RelayState) (d : RelayDir) (hc : s.sessionClosed = false)
      (h : DirStep s.backendToClient d) :
      RelayStep s { s with backendToClient := d }
  | closeSession (s : RelayState) (hc : s.sessionClosed = false)
      (h1 : s.clientToBackend.shut = true) (h2 : s.backendToClient.shut = true) :
      RelayStep s { s with sessionClosed := true }

end PgScofflaw

namespace PgScofflaw

theorem toBytes4_length (n : Nat) : (toBytes4 n).length = 4 := rfl

theorem fromBytes4_toBytes4 {n : Nat} (h : n < 2 ^ 32) :
    fromBytes4 (toBytes4 n) = n := by
  simp only [toBytes4, fromBytes4]
  omega

theorem readBytes_exact {n : Nat} {a : List Nat} (b : List Nat) (h : a.length = n) :
    readBytes n (a ++ b) = some (a, b) := by
  subst h
  simp [readBytes]

theorem splitCStr_encode {w : List Nat} (r : List Nat) (h : 0 ∉ w) :
    splitCStr (w ++ 0 :: r) = some (w, r) := by
  induction w with
  | nil => simp [splitCStr]
  | cons b t ih =>
    have hb : b ≠ 0 := fun e => h (by simp [e])
    have ht : 0 ∉ t := fun m => h (List.mem_cons_of_mem _ m)
    simp [splitCStr, hb, ih ht]

theorem parseParams_encode {ps : List (List Nat × List Nat)}
    (h : ∀ p ∈ ps, p.1 ≠ [] ∧ 0 ∉ p.1 ∧ 0 ∉ p.2) :
    parseParams (encodeParams ps) = some ps := by
  induction ps with
  | nil => simp [encodeParams, parseParams]
  | cons p t ih =>
    obtain ⟨k, v⟩ := p
    obtain ⟨hk, hk0, hv0⟩ := h (k, v) (List.mem_cons_self _ _)
    have ht : ∀ p ∈ t, p.1 ≠ [] ∧ 0 ∉ p.1 ∧ 0 ∉ p.2 :=
      fun p hp => h p (List.mem_cons_of_mem _ hp)
    match k, hk with
    | b :: k', _ =>
      have hb : b ≠ 0 := fun e => hk0 (by simp [e])
      obtain ⟨c, rfl⟩ : ∃ c, b = c + 1 := ⟨b - 1, by omega⟩
      show parseParams ((c + 1) :: (k' ++ 0 :: (v ++ 0 :: encodeParams t))) = _
      rw [parseParams]
      have h1 : splitCStr ((c + 1) :: (k' ++ 0 :: (v ++ 0 :: encodeParams t))) =
          some ((c + 1) :: k', v ++ 0 :: encodeParams t) := by
        have := splitCStr_encode (w := (c + 1) :: k') (v ++ 0 :: encodeParams t) hk0
        simpa using this
      have h2 : splitCStr (v ++ 0 :: encodeParams t) = some (v, encodeParams t) :=
        splitCStr_encode _ hv0
      simp only [Nat.succ_eq_add_one]
      split
      · next heq => rw [h1] at heq; exact absurd heq (by simp)
      · next k1 r1 heq =>
        rw [h1] at heq
        obtain ⟨rfl, rfl⟩ : (c + 1) :: k' = k1 ∧ v ++ 0 :: encodeParams t = r1 := by
          simpa using heq
        split
        · next heq2 => rw [h2] at heq2; exact absurd heq2 (by simp)
        · next v1 r2 heq2 =>
          rw [h2] at heq2
          obtain ⟨rfl, rfl⟩ : v = v1 ∧ encodeParams t = r2 := by simpa using heq2
          simp only [ih ht]


theorem readBytes_all {n : Nat} {s : List Nat} (h : s.length = n) :
    readBytes n s = some (s, []) := by
  subst h; simp [readBytes]

theorem encodeParams_length_pos (ps : List (List Nat × List Nat)) :
    0 < (encodeParams ps).length := by
  cases ps <;> simp [encodeParams]

theorem startupBody_length (m : StartupMessage) :
    (startupBody m).length = 4 + (encodeParams m.parameters).length := by
  simp [startupBody, toBytes4]
  omega

theorem parseStartupBody_encode {m : StartupMessage} (h : m.valid) :
    parseStartupBody (startupBody m) = some m := by
  obtain ⟨hv, hp⟩ := h
  unfold parseStartupBody startupBody
  rw [readBytes_exact _ (toBytes4_length _)]
  simp only [parseParams_encode hp, fromBytes4_toBytes4 hv]

theorem encodeStartup_length (m : StartupMessage) :
    (encodeStartup m).length = 4 + (startupBody m).length := by
  simp [encodeStartup, toBytes4]
  omega

theorem decodeStartup_encode {maxLen : Nat} {m : StartupMessage} (h : m.valid)
    (hmax : (encodeStartup m).length ≤ maxLen)
    (h32 : (encodeStartup m).length < 2 ^ 32) :
    decodeStartup maxLen (encodeStartup m) = .ok m [] := by
  rw [encodeStartup_length] at hmax h32
  unfold decodeStartup
  rw [show encodeStartup m = toBytes4 (4 + (startupBody m).length) ++ startupBody m from rfl]
  rw [readBytes_exact _ (toBytes4_length _)]
  simp only [fromBytes4_toBytes4 h32]
  have hguard : ¬(4 + (startupBody m).length < 8 ∨ maxLen < 4 + (startupBody m).length) := by
    have h1 := encodeParams_length_pos m.parameters
    have h2 := startupBody_length m
    omega
  rw [if_neg hguard]
  rw [readBytes_all (by omega : (startupBody m).length = 4 + (startupBody m).length - 4)]
  simp only [parseStartupBody_encode h]

theorem decodeRegular_encode {maxLen : Nat} {m : RegularMessage} (h : m.valid)
    (hmax : 4 + m.payload.length ≤ maxLen) :
    decodeRegular maxLen (encodeRegular m) = .ok m [] := by
  obtain ⟨htag, h32⟩ := h
  rw [show encodeRegular m = m.typeTag :: (toBytes4 (4 + m.payload.length) ++ m.payload)
      from rfl]
  simp only [decodeRegular]
  rw [readBytes_exact _ (toBytes4_length _)]
  simp only [fromBytes4_toBytes4 h32]
  have hguard : ¬(4 + m.payload.length < 4 ∨ maxLen < 4 + m.payload.length) := by omega
  rw [if_neg hguard]
  rw [readBytes_all (by omega : m.payload.length = 4 + m.payload.length - 4)]

/-- C1: for every valid `Message` (startup or regular) under the configured
maximum message size, encoding with the Frame Codec and decoding the
resulting byte sequence with the corresponding decoder yields the original
message back, with the whole stream consumed: decode(encode(m)) = m. -/
theorem frame_codec_roundtrip (maxLen : Nat) (m : Message) (h : m.valid maxLen) :
    decode maxLen m.phase (encode m) = .ok m [] := by
  cases m with
  | startup ms =>
    obtain ⟨hv, hmax, h32⟩ := h
    simp [Message.phase, encode, decode, decodeStartup_encode hv hmax h32]
  | regular mr =>
    obtain ⟨hv, hmax⟩ := h
    simp [Message.phase, encode, decode, decodeRegular_encode ⟨hv.1, hv.2⟩ hmax]

theorem frame_codec_roundtrip_witness :
    Message.valid 64 (.startup ⟨196608, [([117, 115, 101, 114], [97, 108, 105, 99, 101])]⟩) ∧
      decode 64 (Message.phase (.startup ⟨196608, [([117, 115, 101, 114], [97, 108, 105, 99, 101])]⟩))
          (encode (.startup ⟨196608, [([117, 115, 101, 114], [97, 108, 105, 99, 101])]⟩)) =
        .ok (.startup ⟨196608, [([117, 115, 101, 114], [97, 108, 105, 99, 101])]⟩) [] :=
  ⟨by decide,
   frame_codec_roundtrip 64
     (.startup ⟨196608, [([117, 115, 101, 114], [97, 108, 105, 99, 101])]⟩) (by decide)⟩


/-- C3: `decodeStartup` fails with `ProtocolError` whenever the declared
length is below 8 or exceeds the configured maximum, consuming nothing
beyond the 4-byte length field; `decodeRegular` fails with `ProtocolError`
on a short header read, on a length field below 4 or above the configured
maximum, and on a short payload read. -/
theorem decode_length_guards :
    (∀ (maxLen : Nat) (s : List Nat), 4 ≤ s.length →
       (fromBytes4 (s.take 4) < 8 ∨ maxLen < fromBytes4 (s.take 4)) →
       decodeStartup maxLen s = .protocolError (s.drop 4)) ∧
    (∀ (maxLen : Nat) (s : List Nat), s.length < 5 →
       (decodeRegular maxLen s).isProtocolError = true) ∧
    (∀ (maxLen : Nat) (s : List Nat), 5 ≤ s.length →
       (fromBytes4 ((s.drop 1).take 4) < 4 ∨ maxLen < fromBytes4 ((s.drop 1).take 4)) →
       decodeRegular maxLen s = .protocolError (s.drop 5)) ∧
    (∀ (maxLen : Nat) (s : List Nat), 5 ≤ s.length →
       4 ≤ fromBytes4 ((s.drop 1).take 4) →
       fromBytes4 ((s.drop 1).take 4) ≤ maxLen →
       s.length < 1 + fromBytes4 ((s.drop 1).take 4) →
       (decodeRegular maxLen s).isProtocolError = true) := by
  refine ⟨?_, ?_, ?_, ?_⟩
  · intro maxLen s hlen hguard
    unfold decodeStartup
    rw [show readBytes 4 s = some (s.take 4, s.drop 4) by simp [readBytes, hlen]]
    simp only []
    rw [if_pos hguard]
  · intro maxLen s hlen
    match s with
    | [] => simp [decodeRegular, DecodeResult.isProtocolError]
    | tag :: rest =>
      have : ¬(4 ≤ rest.length) := by simp at hlen; omega
      simp [decodeRegular, readBytes, this, DecodeResult.isProtocolError]
  · intro maxLen s hlen hguard
    match s with
    | tag :: rest =>
      have h4 : 4 ≤ rest.length := by simp at hlen; omega
      simp only [decodeRegular]
      rw [show readBytes 4 rest = some (rest.take 4, rest.drop 4) by simp [readBytes, h4]]
      simp only [List.drop_one, List.tail_cons] at hguard
      simp only []
      rw [if_pos (by simpa using hguard)]
      simp [List.drop_succ_cons]
  · intro maxLen s hlen hf4 hfmax hshort
    match s with
    | tag :: rest =>
      have h4 : 4 ≤ rest.length := by simp at hlen; omega
      simp only [show ((tag :: rest : List Nat)).drop 1 = rest from rfl] at hf4 hfmax hshort
      simp only [List.length_cons] at hshort
      simp only [decodeRegular]
      rw [show readBytes 4 rest = some (rest.take 4, rest.drop 4) by simp [readBytes, h4]]
      simp only []
      rw [if_neg (by simp; omega)]
      rw [show readBytes (fromBytes4 (rest.take 4) - 4) (rest.drop 4) = none by
        simp [readBytes]; omega]
      simp [DecodeResult.isProtocolError]

theorem decode_length_guards_witness :
    (4 ≤ ([0, 0, 0, 5, 9, 9, 9] : List Nat).length ∧
       (fromBytes4 (([0, 0, 0, 5, 9, 9, 9] : List Nat).take 4) < 8 ∨
         (16384 : Nat) < fromBytes4 (([0, 0, 0, 5, 9, 9, 9] : List Nat).take 4)) ∧
       decodeStartup 16384 [0, 0, 0, 5, 9, 9, 9] = .protocolError [9, 9, 9]) ∧
    (([112, 0, 0] : List Nat).length < 5 ∧
       (decodeRegular 16384 [112, 0, 0]).isProtocolError = true) ∧
    (5 ≤ ([112, 0, 0, 0, 2, 7] : List Nat).length ∧
       (fromBytes4 ((([112, 0, 0, 0, 2, 7] : List Nat).drop 1).take 4) < 4 ∨
         (16384 : Nat) < fromBytes4 ((([112, 0, 0, 0, 2, 7] : List Nat).drop 1).take 4)) ∧
       decodeRegular 16384 [112, 0, 0, 0, 2, 7] = .protocolError [7]) ∧
    (5 ≤ ([112, 0, 0, 0, 10, 7] : List Nat).length ∧
       (decodeRegular 16384 [112, 0, 0, 0, 10, 7]).isProtocolError = true) :=
  ⟨⟨by decide, by decide,
    decode_length_guards.1 16384 [0, 0, 0, 5, 9, 9, 9] (by decide) (by decide)⟩,
   ⟨by decide, decode_length_guards.2.1 16384 [112, 0, 0] (by decide)⟩,
   ⟨by decide, by decide,
    decode_length_guards.2.2.1 16384 [112, 0, 0, 0, 2, 7] (by decide) (by decide)⟩,
   ⟨by decide,
    decode_length_guards.2.2.2 16384 [112, 0, 0, 0, 10, 7] (by decide) (by decide)
      (by decide) (by decide)⟩⟩

/-- C9: every encoded frame carries a self-inclusive length field equal to
4 + payload length; regular messages are framed as a 1-byte type tag, a
4-byte length and the payload, while startup messages are framed with the
length prefix only and no type tag. -/
theorem frame_layout :
    (∀ m : RegularMessage,
       encodeRegular m = m.typeTag :: (toBytes4 (4 + m.payload.length) ++ m.payload)) ∧
    (∀ m : RegularMessage, 4 + m.payload.length < 2 ^ 32 →
       fromBytes4 (((encodeRegular m).drop 1).take 4) = 4 + m.payload.length) ∧
    (∀ m : StartupMessage,
       encodeStartup m = toBytes4 (4 + (startupBody m).length) ++ startupBody m) ∧
    (∀ m : StartupMessage, (encodeStartup m).length < 2 ^ 32 →
       fromBytes4 ((encodeStartup m).take 4) = 4 + ((encodeStartup m).drop 4).length) := by
  refine ⟨fun m => rfl, ?_, fun m => rfl, ?_⟩
  · intro m h32
    rw [show ((encodeRegular m).drop 1).take 4 = toBytes4 (4 + m.payload.length) by
      simp [encodeRegular, toBytes4]]
    exact fromBytes4_toBytes4 h32
  · intro m h32
    rw [encodeStartup_length] at h32
    rw [show (encodeStartup m).take 4 = toBytes4 (4 + (startupBody m).length) by
      simp [encodeStartup, toBytes4]]
    rw [show (encodeStartup m).drop 4 = startupBody m by simp [encodeStartup, toBytes4]]
    exact fromBytes4_toBytes4 h32

theorem frame_layout_witness :
    (4 + ([1, 2, 3] : List Nat).length < 2 ^ 32 ∧
       fromBytes4 (((encodeRegular ⟨112, [1, 2, 3]⟩).drop 1).take 4) =
         4 + ([1, 2, 3] : List Nat).length) ∧
    ((encodeStartup ⟨196608, []⟩).length < 2 ^ 32 ∧
       fromBytes4 ((encodeStartup ⟨196608, []⟩).take 4) =
         4 + ((encodeStartup ⟨196608, []⟩).drop 4).length) :=
  ⟨⟨by decide, frame_layout.2.1 ⟨112, [1, 2, 3]⟩ (by decide)⟩,
   ⟨by decide, frame_layout.2.2.2 ⟨196608, []⟩ (by decide)⟩⟩


theorem relayCopy_id (chunk : Nat) (l : List Nat) : relayCopy chunk l = l := by
  induction l using relayCopy.induct chunk with
  | case1 => simp [relayCopy]
  | case2 b rest ih => rw [relayCopy, ih, List.take_append_drop]

theorem deliveredToBackend_paramSends (ps : List (List Nat × List Nat)) (tr : List Action) :
    deliveredToBackend
        (ps.map (fun p => Action.sendClient (.parameterStatus p.1 p.2)) ++ tr) =
      deliveredToBackend tr := by
  induction ps with
  | nil => rfl
  | cons p t ih => simp [deliveredToBackend, ih]

theorem deliveredToClient_paramSends (ps : List (List Nat × List Nat)) (tr : List Action) :
    deliveredToClient
        (ps.map (fun p => Action.sendClient (.parameterStatus p.1 p.2)) ++ tr) =
      deliveredToClient tr := by
  induction ps with
  | nil => rfl
  | cons p t ih => simp [deliveredToClient, ih]

/-- C4: in every session that reaches relay mode (verifier accepted, backend
channel obtained), the Relay Engine delivers every byte sequence sent by the
client to the backend unmodified, and every byte sequence sent by the backend
to the client unmodified, performing no protocol interpretation on either
arbitrary byte stream. -/
theorem relay_transparent (vr : VerifierResult) (bo : BackendOutcome)
    (hs : BackendSessionData) (clientBytes backendBytes : List Nat)
    (hvr : vr = .accepted) (hbo : bo = .ok hs) :
    Action.enterRelay ∈ runSession vr bo clientBytes backendBytes ∧
      deliveredToBackend (runSession vr bo clientBytes backendBytes) = clientBytes ∧
      deliveredToClient (runSession vr bo clientBytes backendBytes) = backendBytes := by
  subst hvr hbo
  unfold runSession
  refine ⟨by simp, ?_, ?_⟩
  · simp only [deliveredToBackend, deliveredToBackend_paramSends]
    simp [deliveredToBackend, relayCopy_id]
  · simp only [deliveredToClient, deliveredToClient_paramSends]
    simp [deliveredToClient, relayCopy_id]

theorem relay_transparent_witness :
    Action.enterRelay ∈ runSession .accepted (.ok ⟨[([107], [118])], 1, 2⟩) [9, 8] [7] ∧
      deliveredToBackend (runSession .accepted (.ok ⟨[([107], [118])], 1, 2⟩) [9, 8] [7]) =
        [9, 8] ∧
      deliveredToClient (runSession .accepted (.ok ⟨[([107], [118])], 1, 2⟩) [9, 8] [7]) =
        [7] :=
  relay_transparent .accepted (.ok ⟨[([107], [118])], 1, 2⟩) ⟨[([107], [118])], 1, 2⟩
    [9, 8] [7] rfl rfl

/-- C2: the Backend Connector is only ever invoked (and the backend
connection only ever opened) in sessions whose verifier outcome is Accepted;
when the Verifier returns Rejected the client receives an ErrorResponse with
the invalid-authorization SQLSTATE, the client socket is closed, and the
Backend Connector is invoked zero times. -/
theorem no_backend_before_auth (vr : VerifierResult) (bo : BackendOutcome)
    (cb bb : List Nat) :
    (Action.invokeConnector ∈ runSession vr bo cb bb → vr = .accepted) ∧
    (Action.backendOpened ∈ runSession vr bo cb bb → vr = .accepted) ∧
    (∀ reason, vr = .rejected reason →
       runSession vr bo cb bb =
         [.sendClient (.authRequest cleartextMethodCode), .invokeVerifier,
          .sendClient (.errorResponse invalidAuthorizationSqlState invalidAuthorizationMsg),
          .closeClient] ∧
         countAction .invokeConnector (runSession vr bo cb bb) = 0) := by
  refine ⟨?_, ?_, ?_⟩
  · intro hmem
    cases vr with
    | accepted => rfl
    | rejected r => simp [runSession] at hmem
    | error c => simp [runSession] at hmem
  · intro hmem
    cases vr with
    | accepted => rfl
    | rejected r => simp [runSession] at hmem
    | error c => simp [runSession] at hmem
  · intro reason hvr
    subst hvr
    exact ⟨rfl, rfl⟩

theorem no_backend_before_auth_witness :
    ((.rejected "bad" : VerifierResult) = .rejected "bad" ∧
       runSession (.rejected "bad") (.ok ⟨[], 1, 2⟩) [] [] =
         [.sendClient (.authRequest cleartextMethodCode), .invokeVerifier,
          .sendClient (.errorResponse invalidAuthorizationSqlState invalidAuthorizationMsg),
          .closeClient] ∧
       countAction .invokeConnector (runSession (.rejected "bad") (.ok ⟨[], 1, 2⟩) [] []) = 0) ∧
    (Action.invokeConnector ∈ runSession .accepted (.ok ⟨[], 1, 2⟩) [] [] →
       (.accepted : VerifierResult) = .accepted) :=
  ⟨⟨rfl, (no_backend_before_auth (.rejected "bad") (.ok ⟨[], 1, 2⟩) [] []).2.2 "bad" rfl⟩,
   (no_backend_before_auth .accepted (.ok ⟨[], 1, 2⟩) [] []).1⟩

/-- C6: when client authentication has succeeded but the Backend Connector
fails with BackendUnavailable, the client receives the fixed generic
ErrorResponse (the session's messages are completely independent of the
backend-internal error text, so it can never be exposed), the client socket
is closed, no backend connection is opened, and the connector is invoked
exactly once (no transparent retry). -/
theorem backend_unavailable_generic :
    ∀ (t : String) (cb bb : List Nat),
      runSession .accepted (.unavailable t) cb bb =
        [.sendClient (.authRequest cleartextMethodCode), .invokeVerifier, .invokeConnector,
         .sendClient (.errorResponse internalErrorSqlState genericBackendFailureMsg),
         .closeClient] ∧
      countAction .invokeConnector (runSession .accepted (.unavailable t) cb bb) = 1 ∧
      (∀ t', runSession .accepted (.unavailable t') cb bb =
         runSession .accepted (.unavailable t) cb bb) ∧
      Action.backendOpened ∉ runSession .accepted (.unavailable t) cb bb ∧
      (runSession .accepted (.unavailable t) cb bb).getLast? = some .closeClient := by
  intro t cb bb
  refine ⟨rfl, rfl, fun t' => rfl, by simp [runSession], rfl⟩

/-- C7: on a verifier Error(cause) outcome the Auth Negotiator sends the
fixed generic ErrorResponse (its behaviour is independent of the internal
cause, which therefore never leaks), closes the client socket, and enters the
Errored state — never Accepted and never Rejected; session-wide, the verifier
is invoked exactly once, the Backend Connector is never invoked, and the run
ends by closing the client socket with no automatic retry. -/
theorem verifier_error_handling :
    ∀ (cause : String),
      authStep .awaitingCredential (.verifierReturned (.error cause)) =
        (.errored, ⟨[.errorResponse internalErrorSqlState genericVerifierFailureMsg], true⟩) ∧
      (authStep .awaitingCredential (.verifierReturned (.error cause))).1 ≠ .accepted ∧
      (authStep .awaitingCredential (.verifierReturned (.error cause))).1 ≠ .rejected ∧
      (∀ cause', authStep .awaitingCredential (.verifierReturned (.error cause')) =
         authStep .awaitingCredential (.verifierReturned (.error cause))) ∧
      (∀ (bo : BackendOutcome) (cb bb : List Nat),
         countAction .invokeVerifier (runSession (.error cause) bo cb bb) = 1 ∧
         countAction .invokeConnector (runSession (.error cause) bo cb bb) = 0 ∧
         Action.closeClient ∈ runSession (.error cause) bo cb bb ∧
         (runSession (.error cause) bo cb bb).getLast? = some .closeClient) := by
  intro cause
  refine ⟨rfl, by simp [authStep], by simp [authStep], fun cause' => rfl,
    fun bo cb bb => ⟨rfl, rfl, ?_, rfl⟩⟩
  simp [runSession]

/-- C10: in the AwaitingCredential state, expiry of the configured
credential-wait interval is handled exactly as a Rejected verifier outcome:
the Auth Negotiator's transition on timeout coincides, in both resulting
state and observable effects, with its transition on any Rejected result. -/
theorem timeout_treated_as_rejected :
    ∀ reason : String,
      authStep .awaitingCredential .timeout =
        authStep .awaitingCredential (.verifierReturned (.rejected reason)) :=
  fun _ => rfl

/-- C8: the Closed lifecycle state is terminal — every event maps it back to
Closed, so no state is re-entered after Closed — and every session run closes
the client socket, and closes the backend socket whenever the backend
connection was opened, regardless of which phase failed. -/
theorem session_teardown :
    (∀ e, coordStep .closed e = .closed) ∧
    (∀ (vr : VerifierResult) (bo : BackendOutcome) (cb bb : List Nat),
       Action.closeClient ∈ runSession vr bo cb bb ∧
         (Action.backendOpened ∈ runSession vr bo cb bb →
            Action.closeBackend ∈ runSession vr bo cb bb)) := by
  refine ⟨fun e => by cases e <;> rfl, fun vr bo cb bb => ⟨?_, ?_⟩⟩
  · cases vr with
    | accepted =>
      cases bo with
      | ok hs => simp [runSession]
      | unavailable t => simp [runSession]
    | rejected r => simp [runSession]
    | error c => simp [runSession]
  · intro hmem
    cases vr with
    | accepted =>
      cases bo with
      | ok hs => simp [runSession]
      | unavailable t => simp [runSession] at hmem
    | rejected r => simp [runSession] at hmem
    | error c => simp [runSession] at hmem

theorem session_teardown_witness :
    coordStep .closed .startupParsed = .closed ∧
    Action.closeClient ∈ runSession .accepted (.ok ⟨[], 1, 2⟩) [5] [6] ∧
    Action.closeBackend ∈ runSession .accepted (.ok ⟨[], 1, 2⟩) [5] [6] :=
  ⟨session_teardown.1 .startupParsed,
   (session_teardown.2 .accepted (.ok ⟨[], 1, 2⟩) [5] [6]).1,
   (session_teardown.2 .accepted (.ok ⟨[], 1, 2⟩) [5] [6]).2 (by simp [runSession])⟩


/-- C5: half-close semantics of the Relay Engine: the session only transitions
to fully closed when both directions' write sides have already shut down; a
step that shuts one direction's write side happens only after that direction
reached end-of-stream with a drained buffer and leaves the opposite direction
untouched; and whenever a not-yet-closed session has buffered bytes in a
direction whose write side is still open, that direction can still take a
step delivering all its already-buffered bytes — independently of the state
of the opposite direction. -/
theorem relay_half_close :
    (∀ s t, RelayStep s t → t.sessionClosed = true →
       s.sessionClosed = true ∨
         (s.clientToBackend.shut = true ∧ s.backendToClient.shut = true)) ∧
    (∀ s t, RelayStep s t →
       s.clientToBackend.shut = false → t.clientToBackend.shut = true →
       t.backendToClient = s.backendToClient ∧ s.clientToBackend.eos = true ∧
         s.clientToBackend.buffered = []) ∧
    (∀ s t, RelayStep s t →
       s.backendToClient.shut = false → t.backendToClient.shut = true →
       t.clientToBackend = s.clientToBackend ∧ s.backendToClient.eos = true ∧
         s.backendToClient.buffered = []) ∧
    (∀ s : RelayState, s.sessionClosed = false → s.backendToClient.shut = false →
       s.backendToClient.buffered ≠ [] →
       ∃ t, RelayStep s t ∧
         t.backendToClient.delivered =
           s.backendToClient.delivered ++ s.backendToClient.buffered) := by
  refine ⟨?_, ?_, ?_, ?_⟩
  · intro s t hstep hclosed
    cases hstep with
    | clientSide d hc h => simp at hclosed; simp [hclosed]
    | backendSide d hc h => simp at hclosed; simp [hclosed]
    | closeSession hc h1 h2 => exact Or.inr ⟨h1, h2⟩
  · intro s t hstep hbefore hafter
    cases hstep with
    | clientSide d hc h =>
      cases h with
      | read n hn hs he => simp at hafter; exact absurd hafter (by simp [hbefore])
      | write hb hw => simp at hafter; exact absurd hafter (by simp [hbefore])
      | markEos hs he => simp at hafter; exact absurd hafter (by simp [hbefore])
      | shutdownWrite he hb hw => exact ⟨rfl, he, hb⟩
    | backendSide d hc h => simp at hafter; exact absurd hafter (by simp [hbefore])
    | closeSession hc h1 h2 => simp at hafter; exact absurd hafter (by simp [hbefore])
  · intro s t hstep hbefore hafter
    cases hstep with
    | backendSide d hc h =>
      cases h with
      | read n hn hs he => simp at hafter; exact absurd hafter (by simp [hbefore])
      | write hb hw => simp at hafter; exact absurd hafter (by simp [hbefore])
      | markEos hs he => simp at hafter; exact absurd hafter (by simp [hbefore])
      | shutdownWrite he hb hw => exact ⟨rfl, he, hb⟩
    | clientSide d hc h => simp at hafter; exact absurd hafter (by simp [hbefore])
    | closeSession hc h1 h2 => simp at hafter; exact absurd hafter (by simp [hbefore])
  · intro s hc hshut hbuf
    refine ⟨_, RelayStep.backendSide s _ hc (DirStep.write s.backendToClient hbuf hshut), ?_⟩
    rfl

theorem relay_half_close_witness :
    (RelayStep
        ⟨⟨[], [], [], true, false⟩, ⟨[3], [7], [], false, false⟩, false⟩
        ⟨⟨[], [], [], true, true⟩, ⟨[3], [7], [], false, false⟩, false⟩ ∧
      (⟨⟨[], [], [], true, true⟩, ⟨[3], [7], [], false, false⟩, false⟩ :
          RelayState).backendToClient =
        (⟨⟨[], [], [], true, false⟩, ⟨[3], [7], [], false, false⟩, false⟩ :
          RelayState).backendToClient) ∧
    (∃ t, RelayStep ⟨⟨[], [], [], true, true⟩, ⟨[3], [7], [], false, false⟩, false⟩ t ∧
       t.backendToClient.delivered = ([] : List Nat) ++ [7]) := by
  have hstep : RelayStep
      ⟨⟨[], [], [], true, false⟩, ⟨[3], [7], [], false, false⟩, false⟩
      ⟨⟨[], [], [], true, true⟩, ⟨[3], [7], [], false, false⟩, false⟩ :=
    RelayStep.clientSide _ _ rfl (DirStep.shutdownWrite _ rfl rfl rfl)
  refine ⟨⟨hstep, ?_⟩, ?_⟩
  · exact (relay_half_close.2.1 _ _ hstep rfl rfl).1
  · exact relay_half_close.2.2.2
      ⟨⟨[], [], [], true, true⟩, ⟨[3], [7], [], false, false⟩, false⟩ rfl rfl (by simp)

end PgScofflaw
